import Mathlib

/-!
Verification development for the patch-picasso repository (a GitHub Action
CLI that posts an AI-generated image as a PR comment).

The TypeScript sources are shallowly embedded as pure Lean functions.
Network calls and other effects are modelled by oracle fields of a `World`
structure (the response each call would return), and each run is a pure
function from a `World` to an `Outcome` that records the run result and
which effectful calls were performed.  JavaScript string truthiness
(`""`/`undefined` are falsy) is modelled by `optTruthy` on `Option String`;
`JSON.parse` of the text-generation response is modelled by an oracle field
`genParsed : Option ParsedGen` (`none` = the parse threw).  JS `.slice(0,n)`
on strings is modelled by `jsSlice` (taking the first `n` characters;
JS counts UTF-16 units, which coincides for the ASCII strings involved).

Two entry-point variants exist in the repository and both are embedded:
`mainIndex` for `src/index.ts` and `mainPart0` for the unnamed variant
(`part_000`), together with `imageStorage.ts`'s `ensureImagesBranch` and
`uploadImageToImagesBranch`.
-/

/-- The fixed hidden marker constant `MARKER` from the sources. -/
def MARKER : String := "<!-- patch-picasso -->"

/-- Boolean test that `needle` is a prefix of `hay` (over character lists). -/
def listStartsWith : List Char → List Char → Bool
  | [], _ => true
  | _ :: _, [] => false
  | a :: as, b :: bs => a == b && listStartsWith as bs

/-- Boolean test that `needle` occurs as a contiguous substring of `hay`,
modelling JavaScript `hay.includes(needle)`. -/
def listContainsSub (needle : List Char) : List Char → Bool
  | [] => listStartsWith needle []
  | c :: t => listStartsWith needle (c :: t) || listContainsSub needle t

/-- String-level substring test: `strContains hay needle` models
`hay.includes(needle)`. -/
def strContains (hay needle : String) : Bool :=
  listContainsSub needle.data hay.data

/-- JavaScript truthiness for a `string | undefined` value: both `undefined`
and the empty string are falsy. `optTruthy o` is `some s` exactly when the
value is a truthy string. -/
def optTruthy : Option String → Option String
  | none => none
  | some s => if s = "" then none else some s

/-- JavaScript `s.slice(0, n)`: the first `n` characters of `s`. -/
def jsSlice (s : String) (n : Nat) : String :=
  String.mk (s.data.take n)

/-- Splitting a character list at every occurrence of `sep`, modelling
JavaScript `String.prototype.split` with a single-character separator
(always returns at least one piece; `"".split(sep) = [""]`). -/
def splitOnChar (sep : Char) : List Char → List (List Char)
  | [] => [[]]
  | c :: rest =>
    let r := splitOnChar sep rest
    if c = sep then [] :: r
    else
      match r with
      | [] => [[c]]
      | h :: t => (c :: h) :: t

/-- Embedding of `parseRepo` (identical in `src/index.ts` and `part_000`):
split on `/`, take the first two components as owner and name, and throw
when either is missing or empty (JS falsy). -/
def parseRepo (repo : String) : Except String (String × String) :=
  let parts := splitOnChar '/' repo.data
  let owner := parts.getD 0 []
  let name := parts.getD 1 []
  if owner.isEmpty || name.isEmpty then
    Except.error ("Invalid repo string: " ++ repo)
  else
    Except.ok (String.mk owner, String.mk name)

/-- A fetched issue comment: `body` is `some s` when the JSON field `body`
is a string `s`, `none` otherwise (the sources check
`typeof c.body === 'string'`). -/
structure Comment where
  body : Option String
deriving DecidableEq, Repr

/-- Scan of the fetched comment list for the hidden marker, embedding
`comments.find(c => typeof c.body === 'string' && c.body.includes(MARKER))`
being non-null. -/
def hasMarkerComment (cs : List Comment) : Bool :=
  cs.any fun c =>
    match c.body with
    | some b => strContains b MARKER
    | none => false

/-- The first element of the image-generation response's `data` array:
`url` and `b64_json` are its optional string fields. -/
structure ImageDatum where
  url : Option String
  b64_json : Option String
deriving DecidableEq, Repr

/-- Result of `JSON.parse` on the text-generation response when it does not
throw: the two fields read by the sources, `none` modelling an absent or
non-truthy field (`parsed.imagePrompt || ''`). -/
structure ParsedGen where
  imagePrompt : Option String
  caption : Option String
deriving DecidableEq, Repr

/-- The fixed fallback caption literal from the sources. -/
def defaultCaption : String := "A lighthearted take on this PR"

/-- Embedding of the prompt/caption extraction (identical in both entry
points): on parse success, `String(parsed.x || '').slice(0, k)`; on parse
failure, the raw text sliced to 800 characters and the fixed fallback
caption. Returns `(imagePrompt, caption)`. -/
def computeGeneration (raw : String) (parsed : Option ParsedGen) : String × String :=
  match parsed with
  | some p =>
      (jsSlice ((optTruthy p.imagePrompt).getD "") 800,
       jsSlice ((optTruthy p.caption).getD "") 200)
  | none => (jsSlice raw 800, defaultCaption)

/-- Response to the contents-API PUT in `part_000`, flattened to the single
field the source reads (`res?.content?.download_url`). -/
structure ContentPutResp where
  download_url : Option String
deriving DecidableEq, Repr

/-- Everything an invocation observes from the outside world after context
resolution: oracle responses for each network call the run may perform. -/
structure World where
  comments : List Comment
  genRaw : String
  genParsed : Option ParsedGen
  imageDatum : Option ImageDatum
  uploadResult : Except String ContentPutResp
  prHeadRepoFullName : Option String
  prBaseRepoFullName : Option String
  prHeadRef : Option String
  prNumber : Nat
  owner : String
  repo : String
  timestamp : Nat
deriving Repr

/-- How a run terminates: `alreadyCommented` is the early `return` (exit 0),
`posted` is a successful comment POST (exit 0), `failed` is a thrown error
reaching the top-level handler (exit 1). -/
inductive RunResult where
  | alreadyCommented : RunResult
  | posted : String → RunResult
  | failed : String → RunResult
deriving DecidableEq, Repr

/-- The observable outcome of a run: its result plus whether the
image-generation call, the repository upload (contents PUT), and the
comment POST were performed. -/
structure Outcome where
  result : RunResult
  imageGenCalled : Bool
  uploadAttempted : Bool
  commentPosted : Bool
deriving DecidableEq, Repr

/-- Percent-encoding of a character list, modelling JavaScript
`encodeURIComponent` on ASCII input (unreserved characters kept, others
replaced by an uppercase `%XX` escape of the code point). -/
def hexDigit (n : Nat) : Char :=
  if n < 10 then Char.ofNat (48 + n) else Char.ofNat (55 + n)

/-- Characters `encodeURIComponent` leaves unescaped:
`A-Z a-z 0-9 - _ . ! ~ * ' ( )`. -/
def isUnreserved (c : Char) : Bool :=
  (('A' ≤ c && c ≤ 'Z') || ('a' ≤ c && c ≤ 'z') || ('0' ≤ c && c ≤ '9')
    || c = '-' || c = '_' || c = '.' || c = '!' || c = '~' || c = '*'
    || c.toNat = 39 || c = '(' || c = ')')

/-- Percent-encode a character list (helper for `encodeURIComponent`). -/
def pctEncodeChars : List Char → List Char
  | [] => []
  | c :: rest =>
    (if isUnreserved c then [c]
     else ['%', hexDigit (c.toNat / 16 % 16), hexDigit (c.toNat % 16)])
      ++ pctEncodeChars rest

/-- Model of JavaScript `encodeURIComponent` for ASCII strings. -/
def encodeURIComponent (s : String) : String :=
  String.mk (pctEncodeChars s.data)

/-- Composition of the comment body in `src/index.ts` (lines 177–185):
`[MARKER, '\n', caption ? … : '', '', image, '', footer].join('\n')`. -/
def composeBodyIndex (caption url : String) : String :=
  MARKER ++ "\n" ++ "\n" ++ "\n"
    ++ (if caption = "" then "" else "> " ++ caption ++ "\n") ++ "\n"
    ++ "" ++ "\n"
    ++ "![Funny PR Image](" ++ url ++ ")" ++ "\n"
    ++ "" ++ "\n"
    ++ "<sub>Generated by patch-picasso using Vercel AI SDK and OpenAI.</sub>"

/-- Composition of the comment body in `part_000` (lines 214–220): the image
slot is an image reference when `imageUrl` is truthy and the literal
unavailability note otherwise. -/
def composeBodyPart0 (caption : String) (imageUrl : Option String) : String :=
  MARKER ++ "\n" ++ "\n" ++ "\n"
    ++ (if caption = "" then "" else "> " ++ caption ++ "\n") ++ "\n"
    ++ (match optTruthy imageUrl with
        | some u => "\n![Funny PR Image](" ++ u ++ ")\n"
        | none => "\n(Generated image unavailable)\n") ++ "\n"
    ++ "<sub>Generated by patch-picasso using Vercel AI SDK and OpenAI.</sub>"

/-- Embedding of `main` from `src/index.ts`, from the idempotency check
onward (context resolution already done).  If a fetched comment contains the
marker the run returns early; otherwise it synthesises the prompt, calls
image generation, uses the direct URL, else embeds base64 as a data URL,
else throws; finally it posts the composed comment. -/
def mainIndex (w : World) : Outcome :=
  if hasMarkerComment w.comments then
    { result := RunResult.alreadyCommented, imageGenCalled := false,
      uploadAttempted := false, commentPosted := false }
  else
    let gen := computeGeneration w.genRaw w.genParsed
    let url0 := optTruthy (w.imageDatum.bind ImageDatum.url)
    let imageUrl : Option String :=
      match url0 with
      | some u => some u
      | none =>
        match optTruthy (w.imageDatum.bind ImageDatum.b64_json) with
        | some b => some ("data:image/png;base64," ++ b)
        | none => none
    match imageUrl with
    | none =>
      { result := RunResult.failed "OpenAI did not return an image URL or data",
        imageGenCalled := true, uploadAttempted := false, commentPosted := false }
    | some u =>
      { result := RunResult.posted (composeBodyIndex gen.2 u),
        imageGenCalled := true, uploadAttempted := false, commentPosted := true }

/-- Embedding of `main` from `part_000`, from the idempotency check onward.
When only base64 is returned it attempts to commit the image to the PR head
branch (same-repository PRs with a truthy head ref only), preferring the
PUT response's `download_url` over the constructed raw URL; upload failures
are swallowed.  The comment is always posted, with an unavailability note
when no URL was obtained. -/
def mainPart0 (w : World) : Outcome :=
  if hasMarkerComment w.comments then
    { result := RunResult.alreadyCommented, imageGenCalled := false,
      uploadAttempted := false, commentPosted := false }
  else
    let gen := computeGeneration w.genRaw w.genParsed
    let url0 := optTruthy (w.imageDatum.bind ImageDatum.url)
    let b64 := optTruthy (w.imageDatum.bind ImageDatum.b64_json)
    let hr := optTruthy w.prHeadRepoFullName
    let br := optTruthy w.prBaseRepoFullName
    let ref := optTruthy w.prHeadRef
    let step : Option String × Bool :=
      match url0 with
      | some u => (some u, false)
      | none =>
        match b64, hr, br, ref with
        | some _, some h, some ba, some r =>
          if h = ba then
            match w.uploadResult with
            | Except.ok resp =>
              let imgPath := ".github/patch-picasso/" ++ toString w.prNumber
                ++ "-" ++ toString w.timestamp ++ ".png"
              let rawUrl := "https://raw.githubusercontent.com/" ++ w.owner
                ++ "/" ++ w.repo ++ "/" ++ encodeURIComponent r ++ "/" ++ imgPath
              (match optTruthy resp.download_url with
               | some d => (some d, true)
               | none => (some rawUrl, true))
            | Except.error _ => (none, true)
          else (none, false)
        | _, _, _, _ => (none, false)
    let caption := jsSlice gen.2 500
    { result := RunResult.posted (composeBodyPart0 caption step.1),
      imageGenCalled := true, uploadAttempted := step.2, commentPosted := true }

/-- Oracle for the GitHub calls made by `imageStorage.ts`: what each request
would return. `getBranch name` models `GET /branches/{name}` (yielding the
head commit sha on success), `getRepoDefaultBranch` models `GET` on the
repository (yielding `default_branch`), `createRef` models
`POST /git/refs`, `getContentSha` models `GET /contents/{path}?ref=…`
(yielding the existing file's sha), and `putContent path branch sha` models
`PUT /contents/{path}`. -/
structure GhApi where
  getBranch : String → Except String String
  getRepoDefaultBranch : Except String String
  createRef : String → String → Except String Unit
  getContentSha : String → String → Except String (Option String)
  putContent : String → String → Option String → Except String ContentPutResp

/-- One GitHub API call performed by the `imageStorage.ts` functions,
recorded in order for trace-level statements. -/
inductive GitCall where
  | readBranch : String → GitCall
  | readRepo : GitCall
  | createRef : String → String → GitCall
  | readContent : String → String → GitCall
  | putContent : String → String → Option String → GitCall
deriving DecidableEq, Repr

/-- Embedding of `ensureImagesBranch` from `imageStorage.ts`: read the
branch; on any failure (the catch swallows every error, 404 or not), read
the repository's default branch name, read that branch's head commit sha,
and create `refs/heads/{branchName}` at that sha.  Returns the outcome
together with the ordered list of calls performed. -/
def ensureImagesBranch (api : GhApi) (branchName : String) :
    Except String Unit × List GitCall :=
  match api.getBranch branchName with
  | Except.ok _ => (Except.ok (), [GitCall.readBranch branchName])
  | Except.error _ =>
    match api.getRepoDefaultBranch with
    | Except.error e =>
      (Except.error e, [GitCall.readBranch branchName, GitCall.readRepo])
    | Except.ok defaultBranch =>
      match api.getBranch defaultBranch with
      | Except.error e =>
        (Except.error e,
         [GitCall.readBranch branchName, GitCall.readRepo,
          GitCall.readBranch defaultBranch])
      | Except.ok headSha =>
        match api.createRef ("refs/heads/" ++ branchName) headSha with
        | Except.error e =>
          (Except.error e,
           [GitCall.readBranch branchName, GitCall.readRepo,
            GitCall.readBranch defaultBranch,
            GitCall.createRef ("refs/heads/" ++ branchName) headSha])
        | Except.ok _ =>
          (Except.ok (),
           [GitCall.readBranch branchName, GitCall.readRepo,
            GitCall.readBranch defaultBranch,
            GitCall.createRef ("refs/heads/" ++ branchName) headSha])

/-- The `UploadParams` interface of `imageStorage.ts`. -/
structure UploadParams where
  owner : String
  repo : String
  token : String
  branchName : Option String
  pathInRepo : String
  commitMessage : String
  contentBase64 : String
deriving DecidableEq, Repr

/-- Branch-name resolution in `uploadImageToImagesBranch`:
`params.branchName || process.env.PATCH_PICASSO_IMAGE_BRANCH ||
'patch-picasso-images'` (JS `||`, so empty strings fall through). -/
def resolveBranchName (envBranch explicit : Option String) : String :=
  match optTruthy explicit with
  | some b => b
  | none =>
    match optTruthy envBranch with
    | some b => b
    | none => "patch-picasso-images"

/-- The raw-content URL template of `imageStorage.ts` line 116. -/
def imagesBranchRawUrl (owner repo branchName pathInRepo : String) : String :=
  "https://raw.githubusercontent.com/" ++ owner ++ "/" ++ repo
    ++ "/refs/heads/" ++ encodeURIComponent branchName ++ "/" ++ pathInRepo

/-- Embedding of `uploadImageToImagesBranch` from `imageStorage.ts`: ensure
the images branch exists (failures propagate), look up an existing file sha
(failures swallowed), PUT the file content (failures propagate), and return
the constructed raw-content URL — the PUT response itself is never
consulted for the returned URL.  `envBranch` is the
`PATCH_PICASSO_IMAGE_BRANCH` environment variable. -/
def uploadImageToImagesBranch (api : GhApi) (envBranch : Option String)
    (params : UploadParams) : Except String String × List GitCall :=
  let branchName := resolveBranchName envBranch params.branchName
  match ensureImagesBranch api branchName with
  | (Except.error e, tr) => (Except.error e, tr)
  | (Except.ok _, tr) =>
    let tr1 := tr ++ [GitCall.readContent params.pathInRepo branchName]
    let existingSha :=
      match api.getContentSha params.pathInRepo branchName with
      | Except.ok s => s
      | Except.error _ => none
    let tr2 := tr1 ++ [GitCall.putContent params.pathInRepo branchName existingSha]
    match api.putContent params.pathInRepo branchName existingSha with
    | Except.error e => (Except.error e, tr2)
    | Except.ok _ =>
      (Except.ok (imagesBranchRawUrl params.owner params.repo branchName
         params.pathInRepo), tr2)

/-! ### Helper lemmas -/

/-- The character data of an appended string is the appended data. -/
theorem strData_append (a b : String) : (a ++ b).data = a.data ++ b.data := by
  cases a; cases b; rfl

/-- A list is a Boolean prefix of itself followed by anything. -/
theorem listStartsWith_append_self (l m : List Char) :
    listStartsWith l (l ++ m) = true := by
  induction l with
  | nil => rfl
  | cons a as ih => simp [listStartsWith, ih]

/-- A Boolean prefix is in particular a contiguous substring. -/
theorem listContainsSub_of_startsWith {n h : List Char}
    (hs : listStartsWith n h = true) : listContainsSub n h = true := by
  cases h with
  | nil => simpa [listContainsSub] using hs
  | cons c t => simp [listContainsSub, hs]

/-- Substring containment is preserved by prepending arbitrary characters. -/
theorem listContainsSub_append_right {n y : List Char} (x : List Char)
    (hy : listContainsSub n y = true) : listContainsSub n (x ++ y) = true := by
  induction x with
  | nil => simpa using hy
  | cons c t ih => simp [listContainsSub, ih]

/-- A comment list whose member contains the marker makes the scan succeed. -/
theorem hasMarkerComment_of_mem {cs : List Comment} {c : Comment} {b : String}
    (hm : c ∈ cs) (hb : c.body = some b) (hc : strContains b MARKER = true) :
    hasMarkerComment cs = true := by
  unfold hasMarkerComment
  rw [List.any_eq_true]
  refine ⟨c, hm, ?_⟩
  rw [hb]
  exact hc

/-- Every body composed by the `src/index.ts` variant starts with the
marker. -/
theorem marker_startsWith_composeBodyIndex (c u : String) :
    listStartsWith MARKER.data (composeBodyIndex c u).data = true := by
  simp only [composeBodyIndex, strData_append, List.append_assoc]
  exact listStartsWith_append_self _ _

/-- Every body composed by the `part_000` variant starts with the marker. -/
theorem marker_startsWith_composeBodyPart0 (c : String) (u : Option String) :
    listStartsWith MARKER.data (composeBodyPart0 c u).data = true := by
  simp only [composeBodyPart0, strData_append, List.append_assoc]
  exact listStartsWith_append_self _ _

/-! ### Claims -/

/-- C1: whenever the fetched comment list contains a comment whose body
includes the fixed hidden marker substring, both entry-point variants
short-circuit: the run performs no image-generation call and no
comment-post call and terminates via the early `return` (exit zero). -/
theorem C1_idempotency_short_circuit (w : World) (c : Comment) (b : String)
    (hm : c ∈ w.comments) (hb : c.body = some b)
    (hc : strContains b MARKER = true) :
    mainIndex w = { result := RunResult.alreadyCommented, imageGenCalled := false,
                    uploadAttempted := false, commentPosted := false }
    ∧ mainPart0 w = { result := RunResult.alreadyCommented, imageGenCalled := false,
                      uploadAttempted := false, commentPosted := false } := by
  have h := hasMarkerComment_of_mem hm hb hc
  exact ⟨by simp [mainIndex, h], by simp [mainPart0, h]⟩

/-- A concrete world whose comment list already holds a marker comment. -/
def worldAlreadyCommented : World :=
  { comments := [⟨some ("before <!-- patch-picasso --> after")⟩],
    genRaw := "", genParsed := none, imageDatum := none,
    uploadResult := Except.error "unused",
    prHeadRepoFullName := none, prBaseRepoFullName := none, prHeadRef := none,
    prNumber := 1, owner := "o", repo := "r", timestamp := 0 }

/-- Witness for C1 at a concrete world. -/
theorem C1_witness :
    mainIndex worldAlreadyCommented
      = { result := RunResult.alreadyCommented, imageGenCalled := false,
            uploadAttempted := false, commentPosted := false }
    ∧ mainPart0 worldAlreadyCommented
      = { result := RunResult.alreadyCommented, imageGenCalled := false,
            uploadAttempted := false, commentPosted := false } :=
  C1_idempotency_short_circuit worldAlreadyCommented
    ⟨some ("before <!-- patch-picasso --> after")⟩
    ("before <!-- patch-picasso --> after")
    (by decide) rfl (by decide)

/-- C10: in the `src/index.ts` entry point, a base64 payload with no hosted
URL is neither a failure nor a repository publication: the image is embedded
directly in the posted comment as a `data:image/png;base64,` URL. -/
theorem C10_index_embeds_data_url (w : World) (b : String)
    (hm : hasMarkerComment w.comments = false)
    (hurl : optTruthy (w.imageDatum.bind ImageDatum.url) = none)
    (hb64 : optTruthy (w.imageDatum.bind ImageDatum.b64_json) = some b) :
    mainIndex w
      = { result := RunResult.posted (composeBodyIndex
              (computeGeneration w.genRaw w.genParsed).2
              ("data:image/png;base64," ++ b)),
          imageGenCalled := true, uploadAttempted := false,
          commentPosted := true } := by
  simp [mainIndex, hm, hurl, hb64]

/-- A concrete world where the image service returned only base64 data. -/
def worldBase64Index : World :=
  { comments := [], genRaw := "raw", genParsed := none,
    imageDatum := some ⟨none, some "QUJD"⟩,
    uploadResult := Except.error "unused",
    prHeadRepoFullName := none, prBaseRepoFullName := none, prHeadRef := none,
    prNumber := 2, owner := "o", repo := "r", timestamp := 5 }

/-- Witness for C10 at a concrete world. -/
theorem C10_witness :
    mainIndex worldBase64Index
      = { result := RunResult.posted (composeBodyIndex defaultCaption
              ("data:image/png;base64," ++ "QUJD")),
          imageGenCalled := true, uploadAttempted := false,
          commentPosted := true } :=
  C10_index_embeds_data_url worldBase64Index "QUJD" (by decide) rfl rfl

/-- C3 (amended): when the image service returns neither a URL nor base64
data, the `src/index.ts` entry point fails (thrown error, no comment
posted), while the `part_000` entry point instead posts a comment whose
image slot is the unavailability note and exits zero. -/
theorem C3_amended_neither_url_nor_b64 (w : World)
    (hm : hasMarkerComment w.comments = false)
    (hurl : optTruthy (w.imageDatum.bind ImageDatum.url) = none)
    (hb64 : optTruthy (w.imageDatum.bind ImageDatum.b64_json) = none) :
    mainIndex w
      = { result := RunResult.failed "OpenAI did not return an image URL or data",
          imageGenCalled := true, uploadAttempted := false,
          commentPosted := false }
    ∧ mainPart0 w
      = { result := RunResult.posted (composeBodyPart0
              (jsSlice (computeGeneration w.genRaw w.genParsed).2 500) none),
          imageGenCalled := true, uploadAttempted := false,
          commentPosted := true } := by
  constructor
  · simp [mainIndex, hm, hurl, hb64]
  · simp [mainPart0, hm, hurl, hb64]

/-- A concrete world where the image response carries neither URL nor
base64 data. -/
def worldNoImage : World :=
  { comments := [], genRaw := "prose", genParsed := none, imageDatum := none,
    uploadResult := Except.error "unused",
    prHeadRepoFullName := some "o/r", prBaseRepoFullName := some "o/r",
    prHeadRef := some "feat",
    prNumber := 7, owner := "o", repo := "r", timestamp := 3 }

/-- C3 counterexample: at `worldNoImage` (no URL, no base64) the `part_000`
entry point does not fail — it posts a comment (with the unavailability
note) and exits zero, contradicting the claim that every such run fails
with no comment posted. -/
theorem C3_counterexample :
    (mainPart0 worldNoImage).commentPosted = true
    ∧ (mainPart0 worldNoImage).result
        = RunResult.posted (composeBodyPart0 defaultCaption none) :=
  ⟨rfl, rfl⟩

/-- Witness for the amended C3 at a concrete world. -/
theorem C3_witness :
    mainIndex worldNoImage
      = { result := RunResult.failed "OpenAI did not return an image URL or data",
          imageGenCalled := true, uploadAttempted := false,
          commentPosted := false }
    ∧ mainPart0 worldNoImage
      = { result := RunResult.posted (composeBodyPart0 defaultCaption none),
          imageGenCalled := true, uploadAttempted := false,
          commentPosted := true } :=
  C3_amended_neither_url_nor_b64 worldNoImage (by decide) rfl rfl

/-- C5: a text-generation response that fails to parse as JSON yields the
raw response text sliced to 800 characters as the image prompt and the
fixed default caption; the failure is recovered locally — the run proceeds
to the image-generation call (and the `part_000` variant still posts). -/
theorem C5_parse_failure_fallback (w : World)
    (hm : hasMarkerComment w.comments = false)
    (hp : w.genParsed = none) :
    computeGeneration w.genRaw w.genParsed
      = (jsSlice w.genRaw 800, "A lighthearted take on this PR")
    ∧ (mainIndex w).imageGenCalled = true
    ∧ ∃ b, (mainPart0 w).result = RunResult.posted b := by
  refine ⟨by rw [hp]; rfl, ?_, ?_⟩
  · simp only [mainIndex, hm, Bool.false_eq_true, if_false]
    split
    · rfl
    · rfl
  · simp only [mainPart0, hm, Bool.false_eq_true, if_false]
    exact ⟨_, rfl⟩

/-- Witness for C5 at a concrete world. -/
theorem C5_witness :
    computeGeneration "prose" none
      = (jsSlice "prose" 800, "A lighthearted take on this PR")
    ∧ (mainIndex worldNoImage).imageGenCalled = true
    ∧ ∃ b, (mainPart0 worldNoImage).result = RunResult.posted b :=
  C5_parse_failure_fallback worldNoImage (by decide) rfl

/-- The length of a JS slice is at most the requested bound. -/
theorem jsSlice_length_le (s : String) (n : Nat) : (jsSlice s n).length ≤ n := by
  have h : (jsSlice s n).length = (s.data.take n).length := rfl
  rw [h, List.length_take]
  exact Nat.min_le_left _ _

/-- C8: on every successfully parsed text-generation response, the image
prompt is hard-truncated to at most 800 characters and the caption to at
most 200 characters, whatever the model returned. -/
theorem C8_hard_truncation (raw : String) (p : ParsedGen) :
    (computeGeneration raw (some p)).1.length ≤ 800
    ∧ (computeGeneration raw (some p)).2.length ≤ 200 :=
  ⟨jsSlice_length_le _ _, jsSlice_length_le _ _⟩

/-- Whatever the caption, the `part_000` body composed with no image URL
contains the literal unavailability note. -/
theorem unavailable_in_composeBodyPart0 (c : String) :
    strContains (composeBodyPart0 c none) "(Generated image unavailable)" = true := by
  unfold strContains
  simp only [composeBodyPart0, optTruthy, strData_append, List.append_assoc]
  apply listContainsSub_append_right
  apply listContainsSub_append_right
  apply listContainsSub_append_right
  apply listContainsSub_append_right
  apply listContainsSub_append_right
  apply listContainsSub_append_right
  decide

/-- C2: in the `part_000` entry point, with base64 but no hosted URL, a
fork (differing head/base repository full names) or a missing head branch
name skips publication entirely: no contents PUT is attempted and the
posted comment carries the unavailability note instead of any constructed
image URL. -/
theorem C2_fork_skips_publication (w : World) (b : String)
    (hm : hasMarkerComment w.comments = false)
    (hurl : optTruthy (w.imageDatum.bind ImageDatum.url) = none)
    (hb64 : optTruthy (w.imageDatum.bind ImageDatum.b64_json) = some b)
    (hskip : (∃ h ba, optTruthy w.prHeadRepoFullName = some h
                ∧ optTruthy w.prBaseRepoFullName = some ba ∧ h ≠ ba)
             ∨ optTruthy w.prHeadRef = none) :
    mainPart0 w
      = { result := RunResult.posted (composeBodyPart0
              (jsSlice (computeGeneration w.genRaw w.genParsed).2 500) none),
          imageGenCalled := true, uploadAttempted := false,
          commentPosted := true }
    ∧ strContains (composeBodyPart0
          (jsSlice (computeGeneration w.genRaw w.genParsed).2 500) none)
        "(Generated image unavailable)" = true := by
  refine ⟨?_, unavailable_in_composeBodyPart0 _⟩
  rcases hskip with ⟨h, ba, hh, hba, hne⟩ | href
  · cases hrf : optTruthy w.prHeadRef
    · simp [mainPart0, hm, hurl, hb64, hh, hba, hrf]
    · simp [mainPart0, hm, hurl, hb64, hh, hba, hrf, hne]
  · cases hhr : optTruthy w.prHeadRepoFullName
    · simp [mainPart0, hm, hurl, hb64, href, hhr]
    · cases hbr : optTruthy w.prBaseRepoFullName
      · simp [mainPart0, hm, hurl, hb64, href, hhr, hbr]
      · simp [mainPart0, hm, hurl, hb64, href, hhr, hbr]

/-- A concrete world for a forked PR whose image response is base64-only. -/
def worldFork : World :=
  { comments := [], genRaw := "raw",
    genParsed := some ⟨some "cat", some "meow"⟩,
    imageDatum := some ⟨none, some "QUJD"⟩,
    uploadResult := Except.error "unused",
    prHeadRepoFullName := some "fork/r", prBaseRepoFullName := some "o/r",
    prHeadRef := some "feat",
    prNumber := 3, owner := "o", repo := "r", timestamp := 9 }

/-- Splitting a list free of the separator yields the single piece. -/
theorem splitOnChar_not_mem {sep : Char} {n : List Char} (hn : sep ∉ n) :
    splitOnChar sep n = [n] := by
  induction n with
  | nil => rfl
  | cons c t ih =>
    have hc : ¬ c = sep := fun h => hn (h ▸ List.mem_cons_self c t)
    have ht : sep ∉ t := fun h => hn (List.mem_cons_of_mem c h)
    simp [splitOnChar, hc, ih ht]

/-- Splitting at the first separator occurrence peels off the leading
separator-free piece. -/
theorem splitOnChar_append {sep : Char} {o : List Char} (n : List Char)
    (ho : sep ∉ o) :
    splitOnChar sep (o ++ sep :: n) = o :: splitOnChar sep n := by
  induction o with
  | nil => simp [splitOnChar]
  | cons c t ih =>
    have hc : ¬ c = sep := fun h => ho (h ▸ List.mem_cons_self c t)
    have ht : sep ∉ t := fun h => ho (List.mem_cons_of_mem c h)
    simp [splitOnChar, hc, ih ht]

/-- C4 (amended): `parseRepo` fails — with an error naming the invalid
string — exactly when the first two `/`-separated components are not both
non-empty; in particular a string with exactly one `/` and non-empty parts
resolves to that owner and name, but strings with extra `/` separators
whose first two components are non-empty also resolve (to those first two
components) instead of failing. -/
theorem C4_amended_parse_repo (repo : String) :
    (parseRepo repo = Except.error ("Invalid repo string: " ++ repo)
       ↔ (((splitOnChar '/' repo.data).getD 0 []).isEmpty
          || ((splitOnChar '/' repo.data).getD 1 []).isEmpty) = true)
    ∧ (∀ o n : List Char, o ≠ [] → n ≠ [] →
        ('/' ∈ o → False) → ('/' ∈ n → False) →
        repo.data = o ++ '/' :: n →
        parseRepo repo = Except.ok (String.mk o, String.mk n)) := by
  constructor
  · cases hB : (((splitOnChar '/' repo.data).getD 0 []).isEmpty
        || ((splitOnChar '/' repo.data).getD 1 []).isEmpty) with
    | true =>
      have he : parseRepo repo = Except.error ("Invalid repo string: " ++ repo) := by
        simp only [parseRepo]
        rw [hB]
        rfl
      rw [he]
      simp
    | false =>
      have hok : parseRepo repo
          = Except.ok (String.mk ((splitOnChar '/' repo.data).getD 0 []),
              String.mk ((splitOnChar '/' repo.data).getD 1 [])) := by
        simp only [parseRepo]
        rw [hB]
        rfl
      rw [hok]
      constructor
      · intro hcon
        exact absurd hcon (by simp)
      · intro htrue
        exact Bool.noConfusion htrue
  · intro o n ho hn hso hsn hd
    have hoe : o.isEmpty = false := by
      cases o with
      | nil => exact absurd rfl ho
      | cons a b => rfl
    have hne2 : n.isEmpty = false := by
      cases n with
      | nil => exact absurd rfl hn
      | cons a b => rfl
    unfold parseRepo
    rw [hd, splitOnChar_append n hso, splitOnChar_not_mem hsn]
    simp [hoe, hne2]

/-- C4 counterexample: the string `"a/b/c"` does not consist of exactly one
`/` (it contains two), yet context resolution succeeds, resolving to the
first two components — contradicting the claim that such strings fail. -/
theorem C4_counterexample :
    parseRepo "a/b/c" = Except.ok ("a", "b")
    ∧ "a/b/c".data.count '/' = 2 :=
  ⟨rfl, rfl⟩

/-- Witness for the amended C4 at a concrete one-slash string. -/
theorem C4_witness : parseRepo "a/b" = Except.ok ("a", "b") :=
  (C4_amended_parse_repo "a/b").2 ['a'] ['b']
    (by decide) (by decide) (by decide) (by decide) rfl

/-- Every body the `src/index.ts` variant posts is a composed body. -/
theorem mainIndex_posted_shape (w : World) (b : String)
    (h : (mainIndex w).result = RunResult.posted b) :
    ∃ c u, b = composeBodyIndex c u := by
  by_cases hm : hasMarkerComment w.comments
  · simp [mainIndex, hm] at h
  · simp only [mainIndex, hm, Bool.false_eq_true, if_false] at h
    split at h
    · simp at h
    · simp only [RunResult.posted.injEq] at h
      exact ⟨_, _, h.symm⟩

/-- Every body the `part_000` variant posts is a composed body. -/
theorem mainPart0_posted_shape (w : World) (b : String)
    (h : (mainPart0 w).result = RunResult.posted b) :
    ∃ c u, b = composeBodyPart0 c u := by
  by_cases hm : hasMarkerComment w.comments
  · simp [mainPart0, hm] at h
  · simp only [mainPart0, hm, Bool.false_eq_true, if_false,
      RunResult.posted.injEq] at h
    exact ⟨_, _, h.symm⟩

/-- C9: every comment body either variant posts begins with the fixed
hidden marker, so an immediate re-run that fetches the posted comment
passes the idempotency check and posts nothing. -/
theorem C9_marker_prefix_self_idempotent (w w2 w3 w4 : World) (b b2 : String)
    (h1 : (mainIndex w).result = RunResult.posted b)
    (h2 : Comment.mk (some b) ∈ w2.comments)
    (h3 : (mainPart0 w3).result = RunResult.posted b2)
    (h4 : Comment.mk (some b2) ∈ w4.comments) :
    listStartsWith MARKER.data b.data = true
    ∧ listStartsWith MARKER.data b2.data = true
    ∧ mainIndex w2 = { result := RunResult.alreadyCommented,
                       imageGenCalled := false, uploadAttempted := false,
                       commentPosted := false }
    ∧ mainPart0 w4 = { result := RunResult.alreadyCommented,
                       imageGenCalled := false, uploadAttempted := false,
                       commentPosted := false } := by
  obtain ⟨c1, u1, hb1⟩ := mainIndex_posted_shape w b h1
  obtain ⟨c2, u2, hb2⟩ := mainPart0_posted_shape w3 b2 h3
  have p1 : listStartsWith MARKER.data b.data = true := by
    rw [hb1]; exact marker_startsWith_composeBodyIndex _ _
  have p2 : listStartsWith MARKER.data b2.data = true := by
    rw [hb2]; exact marker_startsWith_composeBodyPart0 _ _
  have m2 : hasMarkerComment w2.comments = true :=
    hasMarkerComment_of_mem h2 rfl (listContainsSub_of_startsWith p1)
  have m4 : hasMarkerComment w4.comments = true :=
    hasMarkerComment_of_mem h4 rfl (listContainsSub_of_startsWith p2)
  exact ⟨p1, p2, by simp [mainIndex, m2], by simp [mainPart0, m4]⟩

/-- The body posted by `mainIndex` at `worldBase64Index`. -/
def postedBodyIndex : String :=
  composeBodyIndex defaultCaption ("data:image/png;base64," ++ "QUJD")

/-- The body posted by `mainPart0` at `worldNoImage`. -/
def postedBodyPart0 : String := composeBodyPart0 defaultCaption none

/-- A re-run world whose fetched comments hold the `mainIndex` post. -/
def worldRerunIndex : World :=
  { comments := [⟨some postedBodyIndex⟩], genRaw := "", genParsed := none,
    imageDatum := none, uploadResult := Except.error "unused",
    prHeadRepoFullName := none, prBaseRepoFullName := none, prHeadRef := none,
    prNumber := 2, owner := "o", repo := "r", timestamp := 0 }

/-- A re-run world whose fetched comments hold the `mainPart0` post. -/
def worldRerunPart0 : World :=
  { comments := [⟨some postedBodyPart0⟩], genRaw := "", genParsed := none,
    imageDatum := none, uploadResult := Except.error "unused",
    prHeadRepoFullName := none, prBaseRepoFullName := none, prHeadRef := none,
    prNumber := 7, owner := "o", repo := "r", timestamp := 0 }

/-- Witness for C9 at concrete first-run and re-run worlds. -/
theorem C9_witness :
    listStartsWith MARKER.data postedBodyIndex.data = true
    ∧ listStartsWith MARKER.data postedBodyPart0.data = true
    ∧ mainIndex worldRerunIndex = { result := RunResult.alreadyCommented,
                                    imageGenCalled := false,
                                    uploadAttempted := false,
                                    commentPosted := false }
    ∧ mainPart0 worldRerunPart0 = { result := RunResult.alreadyCommented,
                                    imageGenCalled := false,
                                    uploadAttempted := false,
                                    commentPosted := false } :=
  C9_marker_prefix_self_idempotent worldBase64Index worldRerunIndex
    worldNoImage worldRerunPart0 postedBodyIndex postedBodyPart0
    rfl (List.mem_singleton.mpr rfl) rfl (List.mem_singleton.mpr rfl)

/-- Witness for C2 at a concrete forked-PR world. -/
theorem C2_witness :
    mainPart0 worldFork
      = { result := RunResult.posted (composeBodyPart0 "meow" none),
          imageGenCalled := true, uploadAttempted := false,
          commentPosted := true }
    ∧ strContains (composeBodyPart0 "meow" none)
        "(Generated image unavailable)" = true :=
  C2_fork_skips_publication worldFork "QUJD" (by decide) rfl rfl
    (Or.inl ⟨"fork/r", "o/r", rfl, rfl, by decide⟩)

/-- C7: in `ensureImagesBranch`, a failed branch-existence read (e.g.
not-found) is followed by exactly: reading the repository's default branch
name, reading that branch's head commit sha, and creating
`refs/heads/{branch}` pointing at exactly that sha; a successful existence
read performs no further reads and creates nothing. -/
theorem C7_ensure_images_branch (api apiB : GhApi) (name e db sha shaB : String)
    (h1 : api.getBranch name = Except.error e)
    (h2 : api.getRepoDefaultBranch = Except.ok db)
    (h3 : api.getBranch db = Except.ok sha)
    (h4 : api.createRef ("refs/heads/" ++ name) sha = Except.ok ())
    (h5 : apiB.getBranch name = Except.ok shaB) :
    ensureImagesBranch api name
      = (Except.ok (), [GitCall.readBranch name, GitCall.readRepo,
          GitCall.readBranch db,
          GitCall.createRef ("refs/heads/" ++ name) sha])
    ∧ ensureImagesBranch apiB name = (Except.ok (), [GitCall.readBranch name]) := by
  constructor
  · simp [ensureImagesBranch, h1, h2, h3, h4]
  · simp [ensureImagesBranch, h5]

/-- A concrete API oracle where only the images branch read is not found. -/
def api404 : GhApi :=
  { getBranch := fun nm =>
      if nm = "patch-picasso-images"
      then Except.error "GET failed: 404 Not Found"
      else Except.ok "sha1",
    getRepoDefaultBranch := Except.ok "main",
    createRef := fun _ _ => Except.ok (),
    getContentSha := fun _ _ => Except.error "404 Not Found",
    putContent := fun _ _ _ => Except.ok { download_url := none } }

/-- A concrete API oracle where every branch read succeeds. -/
def apiExists : GhApi :=
  { getBranch := fun _ => Except.ok "sha2",
    getRepoDefaultBranch := Except.ok "main",
    createRef := fun _ _ => Except.ok (),
    getContentSha := fun _ _ => Except.error "404 Not Found",
    putContent := fun _ _ _ => Except.ok { download_url := none } }

/-- Witness for C7 at the two concrete API oracles. -/
theorem C7_witness :
    ensureImagesBranch api404 "patch-picasso-images"
      = (Except.ok (), [GitCall.readBranch "patch-picasso-images",
          GitCall.readRepo, GitCall.readBranch "main",
          GitCall.createRef ("refs/heads/" ++ "patch-picasso-images") "sha1"])
    ∧ ensureImagesBranch apiExists "patch-picasso-images"
      = (Except.ok (), [GitCall.readBranch "patch-picasso-images"]) :=
  C7_ensure_images_branch api404 apiExists "patch-picasso-images"
    "GET failed: 404 Not Found" "main" "sha1" "sha2" rfl rfl rfl rfl rfl

/-- C6 (amended): in the `part_000` head-branch fallback the published URL
prefers the PUT response's download URL when it is a truthy string, and
when that URL is falsy (absent or empty) it is constructed from the
raw-content template using owner, repository, head branch, and path; but
`uploadImageToImagesBranch` in `imageStorage.ts` always returns the URL
constructed from the raw-content template (owner, repository, resolved
branch, path), ignoring the write response entirely. -/
theorem C6_amended_url_derivation (w w2 : World) (resp resp2 : ContentPutResp)
    (u h ba r b h2 ba2 r2 b2 : String)
    (api : GhApi) (envBranch : Option String) (p : UploadParams)
    (res : String) (tr : List GitCall)
    (hm : hasMarkerComment w.comments = false)
    (hurl : optTruthy (w.imageDatum.bind ImageDatum.url) = none)
    (hb64 : optTruthy (w.imageDatum.bind ImageDatum.b64_json) = some b)
    (hh : optTruthy w.prHeadRepoFullName = some h)
    (hba : optTruthy w.prBaseRepoFullName = some ba)
    (heq : h = ba)
    (href : optTruthy w.prHeadRef = some r)
    (hup : w.uploadResult = Except.ok resp)
    (hdl : optTruthy resp.download_url = some u)
    (hm2 : hasMarkerComment w2.comments = false)
    (hurl2 : optTruthy (w2.imageDatum.bind ImageDatum.url) = none)
    (hb642 : optTruthy (w2.imageDatum.bind ImageDatum.b64_json) = some b2)
    (hh2 : optTruthy w2.prHeadRepoFullName = some h2)
    (hba2 : optTruthy w2.prBaseRepoFullName = some ba2)
    (heq2 : h2 = ba2)
    (href2 : optTruthy w2.prHeadRef = some r2)
    (hup2 : w2.uploadResult = Except.ok resp2)
    (hdl2 : optTruthy resp2.download_url = none)
    (hE : uploadImageToImagesBranch api envBranch p = (Except.ok res, tr)) :
    mainPart0 w
      = { result := RunResult.posted (composeBodyPart0
              (jsSlice (computeGeneration w.genRaw w.genParsed).2 500) (some u)),
          imageGenCalled := true, uploadAttempted := true,
          commentPosted := true }
    ∧ mainPart0 w2
      = { result := RunResult.posted (composeBodyPart0
              (jsSlice (computeGeneration w2.genRaw w2.genParsed).2 500)
              (some ("https://raw.githubusercontent.com/" ++ w2.owner
                ++ "/" ++ w2.repo ++ "/" ++ encodeURIComponent r2 ++ "/"
                ++ (".github/patch-picasso/" ++ toString w2.prNumber
                    ++ "-" ++ toString w2.timestamp ++ ".png")))),
          imageGenCalled := true, uploadAttempted := true,
          commentPosted := true }
    ∧ res = imagesBranchRawUrl p.owner p.repo
        (resolveBranchName envBranch p.branchName) p.pathInRepo := by
  refine ⟨?_, ?_, ?_⟩
  · subst heq
    simp [mainPart0, hm, hurl, hb64, hh, hba, href, hup, hdl]
  · subst heq2
    simp [mainPart0, hm2, hurl2, hb642, hh2, hba2, href2, hup2, hdl2]
  · simp only [uploadImageToImagesBranch] at hE
    split at hE
    · simp at hE
    · split at hE
      · simp at hE
      · simp only [Prod.mk.injEq, Except.ok.injEq] at hE
        exact hE.1.symm

/-- A concrete API oracle whose PUT response carries a hosted URL. -/
def apiHosted : GhApi :=
  { getBranch := fun _ => Except.ok "s",
    getRepoDefaultBranch := Except.ok "main",
    createRef := fun _ _ => Except.ok (),
    getContentSha := fun _ _ => Except.error "404 Not Found",
    putContent := fun _ _ _ =>
      Except.ok { download_url := some "https://example.com/hosted.png" } }

/-- Concrete upload parameters for the images-branch upload. -/
def cParams : UploadParams :=
  { owner := "o", repo := "r", token := "t", branchName := none,
    pathInRepo := "img/p.png", commitMessage := "add image",
    contentBase64 := "Zm9v" }

/-- C6 counterexample: the write response contains a present download URL,
yet `uploadImageToImagesBranch` returns the template-constructed
raw-content URL, which differs from the response URL — the claimed
preference for the write response's URL does not hold for this function. -/
theorem C6_counterexample :
    apiHosted.putContent "img/p.png" "patch-picasso-images" none
      = Except.ok { download_url := some "https://example.com/hosted.png" }
    ∧ (uploadImageToImagesBranch apiHosted none cParams).1
      = Except.ok
          "https://raw.githubusercontent.com/o/r/refs/heads/patch-picasso-images/img/p.png"
    ∧ "https://raw.githubusercontent.com/o/r/refs/heads/patch-picasso-images/img/p.png"
      ≠ "https://example.com/hosted.png" :=
  ⟨rfl, rfl, by decide⟩

/-- A concrete same-repository world whose PUT response has a download URL. -/
def worldSameRepoHosted : World :=
  { comments := [], genRaw := "raw",
    genParsed := some ⟨some "cat", some "meow"⟩,
    imageDatum := some ⟨none, some "QUJD"⟩,
    uploadResult := Except.ok { download_url := some "https://example.com/dl.png" },
    prHeadRepoFullName := some "o/r", prBaseRepoFullName := some "o/r",
    prHeadRef := some "feat",
    prNumber := 3, owner := "o", repo := "r", timestamp := 9 }

/-- A concrete same-repository world whose PUT response has no download
URL, exercising the constructed-template fallback. -/
def worldSameRepoNoDl : World :=
  { comments := [], genRaw := "raw",
    genParsed := some ⟨some "cat", some "meow"⟩,
    imageDatum := some ⟨none, some "QUJD"⟩,
    uploadResult := Except.ok { download_url := none },
    prHeadRepoFullName := some "o/r", prBaseRepoFullName := some "o/r",
    prHeadRef := some "feat",
    prNumber := 3, owner := "o", repo := "r", timestamp := 9 }

/-- Witness for the amended C6 at concrete inputs. -/
theorem C6_witness :
    mainPart0 worldSameRepoHosted
      = { result := RunResult.posted (composeBodyPart0 "meow"
              (some "https://example.com/dl.png")),
          imageGenCalled := true, uploadAttempted := true,
          commentPosted := true }
    ∧ mainPart0 worldSameRepoNoDl
      = { result := RunResult.posted (composeBodyPart0 "meow"
              (some "https://raw.githubusercontent.com/o/r/feat/.github/patch-picasso/3-9.png")),
          imageGenCalled := true, uploadAttempted := true,
          commentPosted := true }
    ∧ "https://raw.githubusercontent.com/o/r/refs/heads/patch-picasso-images/img/p.png"
      = imagesBranchRawUrl cParams.owner cParams.repo
          (resolveBranchName none cParams.branchName) cParams.pathInRepo :=
  C6_amended_url_derivation worldSameRepoHosted worldSameRepoNoDl
    { download_url := some "https://example.com/dl.png" }
    { download_url := none }
    "https://example.com/dl.png" "o/r" "o/r" "feat" "QUJD"
    "o/r" "o/r" "feat" "QUJD"
    apiHosted none cParams
    "https://raw.githubusercontent.com/o/r/refs/heads/patch-picasso-images/img/p.png"
    [GitCall.readBranch "patch-picasso-images",
     GitCall.readContent "img/p.png" "patch-picasso-images",
     GitCall.putContent "img/p.png" "patch-picasso-images" none]
    (by decide) rfl rfl rfl rfl rfl rfl rfl rfl
    (by decide) rfl rfl rfl rfl rfl rfl rfl rfl rfl
